import Mathlib

/-!
Shallow embedding of the asynchronous readline engine
(`terminal_async/src/readline_impl/readline.rs`) and verification of its
specified behavior.

The functions `flush_internal`, `process_line_control_signal`,
`process_event`, `Readline.set_max_history`, `Readline.add_history_entry`,
`Readline.close` and the monitor / readline loops are embedded from the
source.  `LineState`, `History` and `PauseBuffer` internals live outside
the provided source tree and are modelled from the spec where needed.

The raw terminal sink is modelled as a trace of sink operations together
with a failure script: each sink operation consults the head of the
script to decide whether it succeeds (appending its event to the trace)
or fails with an I/O error.  This makes the embedding total while keeping
the fallibility of the Rust `std::io::Write` operations.
-/

/-- An I/O error code carried by the `io::Error` values of the source. -/
abbrev IoErr := Nat

/-- `Text`: an opaque byte payload written by a background producer
(`pub type Text = Vec<u8>` in the crate). -/
abbrev Text := List Nat

/-- Error returned from `readline()`: either a wrapped I/O error or
`Closed` (all writers dropped / shutdown fired). -/
inductive ReadlineError where
  | IOError (e : IoErr)
  | Closed
deriving DecidableEq, Repr

/-- Events emitted by `Readline::readline()`. -/
inductive ReadlineEvent where
  | Line (s : String)
  | Eof
  | Interrupted
  | Resized
deriving DecidableEq, Repr

/-- Signals that can be sent to the `line` channel, monitored by the
LineMonitor task. -/
inductive LineControlSignal where
  | Line (t : Text)
  | Flush
  | Pause
  | Resume
deriving DecidableEq, Repr

/-- Internal control flow for the `readline` method (three-valued, exactly
as in the source). -/
inductive InternalControlFlow (T : Type) (E : Type) where
  | ReturnOk (v : T)
  | ReturnError (e : E)
  | Continue
deriving DecidableEq, Repr

/-- One observable operation performed on the raw terminal sink. -/
inductive SinkEvent where
  | printData (bytes : Text)
  | clearAndRender
  | render
  | printLine (prompt line : String)
  | clearScreen
  | flush
deriving DecidableEq, Repr

/-- The raw terminal sink: the trace of operations performed so far plus a
failure script.  Each operation consults the head of `failures`: `none`
(or an exhausted script) means success, `some e` means the operation fails
with I/O error `e` and writes nothing. -/
structure RawTerminal where
  trace : List SinkEvent
  failures : List (Option IoErr)
deriving DecidableEq, Repr

/-- Perform one sink operation: append the event to the trace on success,
fail with the scripted I/O error otherwise. -/
def RawTerminal.step (term : RawTerminal) (e : SinkEvent) :
    Except IoErr RawTerminal :=
  match term.failures with
  | [] => Except.ok { term with trace := term.trace ++ [e] }
  | none :: rest => Except.ok { trace := term.trace ++ [e], failures := rest }
  | some err :: _ => Except.error err

/-- `LineState`: the view model of the current prompt and input line.
Modelled from the spec: prompt, current line, cursor position, cached
terminal size and the two `should_print_line_on_*` flags. -/
structure LineState where
  prompt : String
  line : String
  cursor_pos : Nat
  terminal_size : Nat × Nat
  should_print_line_on_enter : Bool
  should_print_line_on_control_c : Bool
deriving DecidableEq, Repr

/-- Modelled from the spec: `LineState.print_data` erases the prompt
region, writes the bytes verbatim and re-renders the prompt below; it is
observable as one `printData` sink operation and leaves the line-state
model unchanged. -/
def LineState.print_data (ls : LineState) (bytes : Text) (term : RawTerminal) :
    Except ReadlineError (LineState × RawTerminal) :=
  match term.step (SinkEvent.printData bytes) with
  | Except.error e => Except.error (ReadlineError.IOError e)
  | Except.ok t => Except.ok (ls, t)

/-- Modelled from the spec: `LineState.clear_and_render` erases the prompt
region and re-renders prompt and line; one `clearAndRender` sink
operation, line-state model unchanged. -/
def LineState.clear_and_render (ls : LineState) (term : RawTerminal) :
    Except ReadlineError (LineState × RawTerminal) :=
  match term.step SinkEvent.clearAndRender with
  | Except.error e => Except.error (ReadlineError.IOError e)
  | Except.ok t => Except.ok (ls, t)

/-- `PauseBuffer`: FIFO queue of byte payloads withheld during pause
(`pub type PauseBuffer = VecDeque<Text>` in the crate). -/
structure PauseBuffer where
  items : List Text
deriving DecidableEq, Repr

/-- `VecDeque::push_back`. -/
def PauseBuffer.push_back (b : PauseBuffer) (t : Text) : PauseBuffer :=
  ⟨b.items ++ [t]⟩

/-- `VecDeque::pop_front`. -/
def PauseBuffer.pop_front (b : PauseBuffer) : Option (Text × PauseBuffer) :=
  match b.items with
  | [] => none
  | t :: rest => some (t, ⟨rest⟩)

/-- `VecDeque::len`. -/
def PauseBuffer.len (b : PauseBuffer) : Nat := b.items.length

/-- The shared state the LineMonitor task operates on: the paused flag,
the pause buffer, the line state and the raw terminal (each of which the
source wraps in `Arc<StdMutex<..>>`). -/
structure MonitorState where
  is_paused : Bool
  is_paused_buffer : PauseBuffer
  line_state : LineState
  raw_terminal : RawTerminal
deriving DecidableEq, Repr

/-- The `while let Some(buf) = is_paused_buffer.pop_front()` loop of
`flush_internal`: print each popped entry in FIFO order; on the first
`print_data` error stop (the failing entry has already been popped) and
report the error. -/
def drain_print_all : List Text → LineState → RawTerminal →
    List Text × LineState × RawTerminal × Option ReadlineError
  | [], ls, term => ([], ls, term, none)
  | buf :: rest, ls, term =>
    match ls.print_data buf term with
    | Except.error err => (rest, ls, term, some err)
    | Except.ok (ls2, term2) => drain_print_all rest ls2 term2

/-- `pause_and_resume_support::flush_internal`: if paused return `Ok(())`
at once; otherwise drain the pause buffer in FIFO order through
`print_data`, then `clear_and_render`, then flush the raw terminal.
Errors propagate via `?`, keeping the state mutations made so far. -/
def flush_internal (s : MonitorState) :
    MonitorState × Except ReadlineError Unit :=
  if s.is_paused then (s, Except.ok ())
  else
    match drain_print_all s.is_paused_buffer.items s.line_state s.raw_terminal with
    | (remaining, ls, term, some err) =>
      ({ s with is_paused_buffer := ⟨remaining⟩, line_state := ls,
                raw_terminal := term }, Except.error err)
    | (remaining, ls, term, none) =>
      let s1 : MonitorState :=
        { s with is_paused_buffer := ⟨remaining⟩, line_state := ls,
                 raw_terminal := term }
      match ls.clear_and_render term with
      | Except.error err => (s1, Except.error err)
      | Except.ok (ls2, term2) =>
        let s2 : MonitorState := { s1 with line_state := ls2, raw_terminal := term2 }
        match term2.step SinkEvent.flush with
        | Except.error err => (s2, Except.error (ReadlineError.IOError err))
        | Except.ok term3 => ({ s2 with raw_terminal := term3 }, Except.ok ())

/-- `pause_and_resume_support::process_line_control_signal`: handle one
received item of the line channel (`none` models a closed channel, i.e.
all `SharedWriter`s dropped). -/
def process_line_control_signal (maybe_line_control_signal : Option LineControlSignal)
    (s : MonitorState) : MonitorState × InternalControlFlow Unit ReadlineError :=
  match maybe_line_control_signal with
  | some sig =>
    match sig with
    | LineControlSignal.Line buf =>
      if s.is_paused then
        ({ s with is_paused_buffer := s.is_paused_buffer.push_back buf },
         InternalControlFlow.Continue)
      else
        match s.line_state.print_data buf s.raw_terminal with
        | Except.error err => (s, InternalControlFlow.ReturnError err)
        | Except.ok (ls2, term2) =>
          let s1 : MonitorState := { s with line_state := ls2, raw_terminal := term2 }
          match term2.step SinkEvent.flush with
          | Except.error err =>
            (s1, InternalControlFlow.ReturnError (ReadlineError.IOError err))
          | Except.ok term3 =>
            ({ s1 with raw_terminal := term3 }, InternalControlFlow.Continue)
    | LineControlSignal.Flush =>
      ((flush_internal s).1, InternalControlFlow.Continue)
    | LineControlSignal.Pause =>
      ({ s with is_paused := true }, InternalControlFlow.Continue)
    | LineControlSignal.Resume =>
      ((flush_internal { s with is_paused := false }).1,
       InternalControlFlow.Continue)
  | none => (s, InternalControlFlow.ReturnError ReadlineError.Closed)

/-- One arrival observed by the LineMonitor's `tokio::select!`: either a
receive on the line channel (`none` = channel closed) or a shutdown
notification. -/
inductive MonitorInput where
  | signal (sig : Option LineControlSignal)
  | shutdown
deriving DecidableEq, Repr

/-- How an execution of the monitor loop ended. -/
inductive MonitorExit where
  /-- Schedule exhausted, the task is still parked on the select. -/
  | stillWaiting
  /-- Broke out of the loop on a shutdown notification. -/
  | exitShutdown
  /-- Called `line_receiver.close()` and broke out (the `ReturnError` arm). -/
  | exitClosed
  /-- Hit the `unreachable` arm (the `ReturnOk` case of the match). -/
  | panicked
deriving DecidableEq, Repr

/-- One iteration of the LineMonitor loop body
(`spawn_task_to_monitor_line_channel`): dispatch on the select arm that
fired and on the control flow returned by `process_line_control_signal`.
`none` means the loop continues. -/
def monitor_step (inp : MonitorInput) (s : MonitorState) :
    MonitorState × Option MonitorExit :=
  match inp with
  | MonitorInput.shutdown => (s, some MonitorExit.exitShutdown)
  | MonitorInput.signal sig =>
    match process_line_control_signal sig s with
    | (s2, InternalControlFlow.ReturnError _) => (s2, some MonitorExit.exitClosed)
    | (s2, InternalControlFlow.Continue) => (s2, none)
    | (s2, InternalControlFlow.ReturnOk _) => (s2, some MonitorExit.panicked)

/-- The LineMonitor loop run over a finite schedule of arrivals. -/
def monitor_loop : List MonitorInput → MonitorState → MonitorState × MonitorExit
  | [], s => (s, MonitorExit.stillWaiting)
  | inp :: rest, s =>
    match monitor_step inp s with
    | (s2, some ex) => (s2, ex)
    | (s2, none) => monitor_loop rest s2

/-- Processing a sequence of `Line` signals, as the monitor does when only
`Line` payloads arrive. -/
def process_line_signals : List Text → MonitorState → MonitorState
  | [], s => s
  | t :: rest, s =>
    process_line_signals rest
      (process_line_control_signal (some (LineControlSignal.Line t)) s).1

/-- `History`: bounded ordered list of past entries plus a navigation
cursor.  Modelled from the spec: entries are stored newest first (append
pushes at the front, eviction drops from the back), `cur_position = none`
means no selection. -/
structure History where
  entries : List String
  max_size : Nat
  cur_position : Option Nat
deriving DecidableEq, Repr

/-- Modelled from the spec: reset the navigation cursor (called when the
user types a character or submits). -/
def History.reset_cursor (h : History) : History :=
  { h with cur_position := none }

/-- Modelled from the spec: `History.update` (the receiver side of the
history channel) appends the newest entry at the front, evicts the oldest
beyond `max_size`, and resets the navigation cursor; `none` is ignored. -/
def History.update (h : History) (maybe_line : Option String) : History :=
  match maybe_line with
  | none => h
  | some line =>
    { h with entries := (line :: h.entries).take h.max_size,
             cur_position := none }

/-- Modelled from the spec: move the navigation cursor toward older
entries; return the recalled entry or `none` at the edge. -/
def History.recall_prev (h : History) : Option String × History :=
  match h.cur_position with
  | none =>
    match h.entries with
    | [] => (none, h)
    | e :: _ => (some e, { h with cur_position := some 0 })
  | some i =>
    if i + 1 < h.entries.length then
      (h.entries.get? (i + 1), { h with cur_position := some (i + 1) })
    else (none, h)

/-- Modelled from the spec: move the navigation cursor toward newer
entries; return the recalled entry or `none` past the newest. -/
def History.recall_next (h : History) : Option String × History :=
  match h.cur_position with
  | none => (none, h)
  | some i =>
    if i = 0 then (none, { h with cur_position := none })
    else (h.entries.get? (i - 1), { h with cur_position := some (i - 1) })

/-- The terminal input events the engine consumes (spec section 6). -/
inductive Event where
  | char (c : Char)
  | backspace
  | delete
  | left
  | right
  | home
  | endKey
  | up
  | down
  | enter
  | ctrlC
  | ctrlD
  | ctrlL
  | resize (cols rows : Nat)
  | other
deriving DecidableEq, Repr

/-- Insert a character at a position of a string. -/
def strInsert (s : String) (i : Nat) (c : Char) : String :=
  (s.toList.take i ++ c :: s.toList.drop i).asString

/-- Remove the character at a position of a string. -/
def strRemove (s : String) (i : Nat) : String :=
  (s.toList.take i ++ s.toList.drop (i + 1)).asString

/-- Modelled from the spec: the `Delete` editing path (shared with Ctrl-D
on a non-empty line): delete the character at the cursor and redraw. -/
def LineState.handle_delete (ls : LineState) (term : RawTerminal) (hist : History) :
    Except ReadlineError
      (LineState × RawTerminal × History × List String × Option ReadlineEvent) :=
  match term.step SinkEvent.render with
  | Except.error e => Except.error (ReadlineError.IOError e)
  | Except.ok t =>
    Except.ok ({ ls with line := strRemove ls.line ls.cursor_pos }, t, hist, [], none)

/-- Modelled from the spec: `LineState.handle_event` advances the editor
by one input event following the spec's event-handling table.  The
returned `List String` is the sequence of entries pushed onto the history
channel during the call (the Enter path pushes the submitted line via
`History.add`, whose sender feeds the engine's history channel). -/
def LineState.handle_event (ls : LineState) (ev : Event) (term : RawTerminal)
    (hist : History) :
    Except ReadlineError
      (LineState × RawTerminal × History × List String × Option ReadlineEvent) :=
  match ev with
  | Event.char c =>
    match term.step SinkEvent.render with
    | Except.error e => Except.error (ReadlineError.IOError e)
    | Except.ok t =>
      Except.ok ({ ls with line := strInsert ls.line ls.cursor_pos c,
                           cursor_pos := ls.cursor_pos + 1 },
                 t, hist.reset_cursor, [], none)
  | Event.backspace =>
    match term.step SinkEvent.render with
    | Except.error e => Except.error (ReadlineError.IOError e)
    | Except.ok t =>
      Except.ok ({ ls with line := strRemove ls.line (ls.cursor_pos - 1),
                           cursor_pos := ls.cursor_pos - 1 },
                 t, hist, [], none)
  | Event.delete => ls.handle_delete term hist
  | Event.left =>
    Except.ok ({ ls with cursor_pos := ls.cursor_pos - 1 }, term, hist, [], none)
  | Event.right =>
    Except.ok ({ ls with cursor_pos := min (ls.cursor_pos + 1) ls.line.length },
               term, hist, [], none)
  | Event.home =>
    Except.ok ({ ls with cursor_pos := 0 }, term, hist, [], none)
  | Event.endKey =>
    Except.ok ({ ls with cursor_pos := ls.line.length }, term, hist, [], none)
  | Event.up =>
    match hist.recall_prev with
    | (some entry, hist2) =>
      match term.step SinkEvent.render with
      | Except.error e => Except.error (ReadlineError.IOError e)
      | Except.ok t =>
        Except.ok ({ ls with line := entry, cursor_pos := entry.length },
                   t, hist2, [], none)
    | (none, hist2) => Except.ok (ls, term, hist2, [], none)
  | Event.down =>
    match hist.recall_next with
    | (maybe_entry, hist2) =>
      let entry := maybe_entry.getD ""
      match term.step SinkEvent.render with
      | Except.error e => Except.error (ReadlineError.IOError e)
      | Except.ok t =>
        Except.ok ({ ls with line := entry, cursor_pos := entry.length },
                   t, hist2, [], none)
  | Event.enter =>
    let taken := ls.line
    let op := if ls.should_print_line_on_enter then
                SinkEvent.printLine ls.prompt ls.line
              else SinkEvent.clearAndRender
    match term.step op with
    | Except.error e => Except.error (ReadlineError.IOError e)
    | Except.ok t =>
      Except.ok ({ ls with line := "", cursor_pos := 0 },
                 t, hist.reset_cursor, [taken], some (ReadlineEvent.Line taken))
  | Event.ctrlC =>
    let op := if ls.should_print_line_on_control_c then
                SinkEvent.printLine ls.prompt ls.line
              else SinkEvent.clearAndRender
    match term.step op with
    | Except.error e => Except.error (ReadlineError.IOError e)
    | Except.ok t =>
      Except.ok ({ ls with line := "", cursor_pos := 0 },
                 t, hist, [], some ReadlineEvent.Interrupted)
  | Event.ctrlD =>
    if ls.line = "" then
      Except.ok (ls, term, hist, [], some ReadlineEvent.Eof)
    else ls.handle_delete term hist
  | Event.ctrlL =>
    match term.step SinkEvent.clearScreen with
    | Except.error e => Except.error (ReadlineError.IOError e)
    | Except.ok t => Except.ok (ls, t, hist, [], none)
  | Event.resize cols rows =>
    match term.step SinkEvent.render with
    | Except.error e => Except.error (ReadlineError.IOError e)
    | Except.ok t =>
      Except.ok ({ ls with terminal_size := (cols, rows) },
                 t, hist, [], some ReadlineEvent.Resized)
  | Event.other => Except.ok (ls, term, hist, [], none)

/-- The state owned by a `Readline` instance that the engine-side claims
are about: line state, raw terminal, history store, the unbounded history
channel (queue of sent-but-unreceived entries), a ghost log of every entry
ever pushed onto that channel, and whether the receiver half is still
alive (it is owned by the instance itself). -/
structure Readline where
  line_state : LineState
  raw_terminal : RawTerminal
  history : History
  history_channel : List String
  history_pushes : List String
  history_receiver_alive : Bool
deriving DecidableEq, Repr

/-- `readline_internal::process_event`: handle one item of the input
stream.  On `Some(Ok(event))` delegate to `LineState.handle_event`, then
flush the raw terminal; return `ReturnOk` if the handler produced a
`ReadlineEvent`.  Entries the handler pushed onto the history channel are
recorded in `history_channel` and the ghost `history_pushes` log. -/
def process_event (maybe_result_crossterm_event : Option (Except IoErr Event))
    (st : Readline) : Readline × InternalControlFlow ReadlineEvent ReadlineError :=
  match maybe_result_crossterm_event with
  | some res =>
    match res with
    | Except.ok ev =>
      match st.line_state.handle_event ev st.raw_terminal st.history with
      | Except.ok (ls2, term2, hist2, sent, maybe_readline_event) =>
        let st1 : Readline :=
          { st with line_state := ls2, raw_terminal := term2, history := hist2,
                    history_channel := st.history_channel ++ sent,
                    history_pushes := st.history_pushes ++ sent }
        match term2.step SinkEvent.flush with
        | Except.error e =>
          (st1, InternalControlFlow.ReturnError (ReadlineError.IOError e))
        | Except.ok term3 =>
          let st2 : Readline := { st1 with raw_terminal := term3 }
          match maybe_readline_event with
          | some readline_event => (st2, InternalControlFlow.ReturnOk readline_event)
          | none => (st2, InternalControlFlow.Continue)
      | Except.error e => (st, InternalControlFlow.ReturnError e)
    | Except.error e => (st, InternalControlFlow.ReturnError (ReadlineError.IOError e))
  | none => (st, InternalControlFlow.Continue)

/-- One arrival observed by `readline()`'s `tokio::select!`: an item of
the input stream, a receive on the history channel, or a shutdown
notification. -/
inductive ReadlineInput where
  | inputEvent (mev : Option (Except IoErr Event))
  | historyRecv
  | shutdown
deriving Repr

/-- The history branch of `readline()`: receive one entry from the
history channel (if any is queued) and apply `History.update`. -/
def history_recv_step (st : Readline) : Readline :=
  match st.history_channel with
  | [] => st
  | line :: rest =>
    { st with history := st.history.update (some line), history_channel := rest }

/-- `Readline::readline()` run over a finite schedule of select arrivals:
dispatch input events to `process_event`, history arrivals to
`History.update`, and return `Err(Closed)` on a shutdown notification.
`none` as the result means the call is still pending. -/
def Readline.readline : List ReadlineInput → Readline →
    Readline × Option (Except ReadlineError ReadlineEvent)
  | [], st => (st, none)
  | ReadlineInput.shutdown :: _, st =>
    (st, some (Except.error ReadlineError.Closed))
  | ReadlineInput.historyRecv :: rest, st =>
    Readline.readline rest (history_recv_step st)
  | ReadlineInput.inputEvent mev :: rest, st =>
    match process_event mev st with
    | (st2, InternalControlFlow.ReturnOk v) => (st2, some (Except.ok v))
    | (st2, InternalControlFlow.ReturnError e) => (st2, some (Except.error e))
    | (st2, InternalControlFlow.Continue) => Readline.readline rest st2

/-- `Readline::set_max_history`: set `max_size` and truncate the entries
(`VecDeque::truncate` keeps the first `max_size` elements, which are the
newest under the newest-first storage order). -/
def Readline.set_max_history (st : Readline) (max_size : Nat) : Readline :=
  let hist := st.history
  { st with history :=
      { hist with
          max_size := max_size
          entries := hist.entries.take max_size } }

/-- `Readline::add_history_entry`: `self.history_sender.send(entry).ok()`.
The unbounded send succeeds exactly when the receiver half (owned by the
instance) is alive; it only enqueues on the channel, never touching the
`History` store directly. -/
def Readline.add_history_entry (st : Readline) (entry : String) :
    Readline × Option Unit :=
  if st.history_receiver_alive then
    ({ st with history_channel := st.history_channel ++ [entry],
               history_pushes := st.history_pushes ++ [entry] }, some ())
  else (st, none)

/-- The shutdown broadcast channel, modelled by the log of values sent on
it. -/
structure ShutdownBroadcast where
  sent_values : List Bool
deriving DecidableEq, Repr

/-- `Readline::close`: `let _ = self.shutdown_sender.send(true);`. -/
def Readline.close (b : ShutdownBroadcast) : ShutdownBroadcast :=
  { sent_values := b.sent_values ++ [true] }

/-! ### Sample states used by the witnesses -/

/-- A fresh line state with the demo prompt. -/
def sampleLineState : LineState :=
  { prompt := "> ", line := "", cursor_pos := 0, terminal_size := (80, 24),
    should_print_line_on_enter := true, should_print_line_on_control_c := true }

/-- A paused monitor state with an empty pause buffer and a healthy sink. -/
def samplePausedState : MonitorState :=
  { is_paused := true, is_paused_buffer := ⟨[]⟩, line_state := sampleLineState,
    raw_terminal := ⟨[], []⟩ }

/-- A paused monitor state holding one buffered payload. -/
def sampleBufferedState : MonitorState :=
  { samplePausedState with is_paused_buffer := ⟨[[97, 98]]⟩ }

/-! ### Helper lemmas -/

/-- The last element of a list with one element appended. -/
theorem getLast_of_append_singleton {α : Type} (l : List α) (a : α) :
    (l ++ [a]).getLast? = some a := by
  rw [List.getLast?_append_cons]
  rfl

/-- `process_line_control_signal` never produces the `ReturnOk` arm. -/
theorem process_signal_not_return_ok (msig : Option LineControlSignal)
    (s : MonitorState) :
    (process_line_control_signal msig s).2 ≠ InternalControlFlow.ReturnOk () := by
  cases msig with
  | none => simp [process_line_control_signal]
  | some sig =>
    cases sig with
    | Line buf =>
      cases hp : s.is_paused with
      | true => simp [process_line_control_signal, hp]
      | false =>
        cases h1 : s.line_state.print_data buf s.raw_terminal with
        | error e => simp [process_line_control_signal, hp, h1]
        | ok pair =>
          obtain ⟨ls2, term2⟩ := pair
          cases h2 : term2.step SinkEvent.flush with
          | error e2 => simp [process_line_control_signal, hp, h1, h2]
          | ok term3 => simp [process_line_control_signal, hp, h1, h2]
    | Flush => simp [process_line_control_signal]
    | Pause => simp [process_line_control_signal]
    | Resume => simp [process_line_control_signal]

/-- `monitor_step` never reaches the unreachable arm of the match. -/
theorem monitor_step_no_panic (inp : MonitorInput) (s : MonitorState) :
    (monitor_step inp s).2 ≠ some MonitorExit.panicked := by
  cases inp with
  | shutdown => simp [monitor_step]
  | signal msig =>
    rcases hres : process_line_control_signal msig s with ⟨s2, flow⟩
    cases flow with
    | ReturnOk v =>
      have hx : (process_line_control_signal msig s).2
          = InternalControlFlow.ReturnOk v := by rw [hres]
      cases v
      exact absurd hx (process_signal_not_return_ok msig s)
    | ReturnError e => simp [monitor_step, hres]
    | Continue => simp [monitor_step, hres]

/-- The monitor loop never ends in the unreachable arm. -/
theorem monitor_loop_no_panic (inps : List MonitorInput) (s : MonitorState) :
    (monitor_loop inps s).2 ≠ MonitorExit.panicked := by
  induction inps generalizing s with
  | nil => simp [monitor_loop]
  | cons inp rest ih =>
    rcases hstep : monitor_step inp s with ⟨s2, r⟩
    cases r with
    | none =>
      simpa [monitor_loop, hstep] using ih s2
    | some ex =>
      have h2 : some ex ≠ some MonitorExit.panicked := by
        have h3 := monitor_step_no_panic inp s
        rw [hstep] at h3
        exact h3
      simp only [monitor_loop, hstep]
      intro hc
      exact h2 (by rw [hc])

/-- While paused, a sequence of `Line` signals only appends the payloads
to the pause buffer. -/
theorem process_line_signals_paused (ts : List Text) (s : MonitorState)
    (hp : s.is_paused = true) :
    process_line_signals ts s
      = { s with is_paused_buffer := ⟨s.is_paused_buffer.items ++ ts⟩ } := by
  induction ts generalizing s with
  | nil => simp [process_line_signals]
  | cons t rest ih =>
    have hstep : (process_line_control_signal (some (LineControlSignal.Line t)) s).1
        = { s with is_paused_buffer := s.is_paused_buffer.push_back t } := by
      simp [process_line_control_signal, hp]
    rw [process_line_signals, hstep,
        ih { s with is_paused_buffer := s.is_paused_buffer.push_back t } hp]
    simp [PauseBuffer.push_back]

/-! ### Claims about the LineMonitor -/

/-- C1: every `Line` signal processed while the paused flag is true
appends its payload to the pause buffer and writes nothing to the raw
terminal sink; after any sequence of `Line` signals arriving while paused
(starting from the empty buffer the pause invariant guarantees), the
buffer holds exactly those payloads, so its length equals the number of
`Line` signals, and the raw terminal is untouched. -/
theorem paused_line_signals_are_buffered (s : MonitorState) (ts : List Text)
    (hp : s.is_paused = true) (hb : s.is_paused_buffer.items = []) :
    (∀ t : Text, process_line_control_signal (some (LineControlSignal.Line t)) s
        = ({ s with is_paused_buffer := s.is_paused_buffer.push_back t },
           InternalControlFlow.Continue)) ∧
    (process_line_signals ts s).is_paused_buffer.items = ts ∧
    (process_line_signals ts s).is_paused_buffer.len = ts.length ∧
    (process_line_signals ts s).raw_terminal = s.raw_terminal := by
  have hall := process_line_signals_paused ts s hp
  refine ⟨fun t => ?_, ?_, ?_, ?_⟩
  · simp [process_line_control_signal, hp]
  · rw [hall]; simp [hb]
  · rw [hall]; simp [PauseBuffer.len, hb]
  · rw [hall]

/-- Witness for C1 at a concrete paused state and two payloads. -/
theorem paused_line_signals_are_buffered_witness :
    (∀ t : Text, process_line_control_signal (some (LineControlSignal.Line t))
          samplePausedState
        = ({ samplePausedState with
              is_paused_buffer := samplePausedState.is_paused_buffer.push_back t },
           InternalControlFlow.Continue)) ∧
    (process_line_signals [[104], [105]] samplePausedState).is_paused_buffer.items
        = [[104], [105]] ∧
    (process_line_signals [[104], [105]] samplePausedState).is_paused_buffer.len = 2 ∧
    (process_line_signals [[104], [105]] samplePausedState).raw_terminal
        = samplePausedState.raw_terminal :=
  paused_line_signals_are_buffered samplePausedState [[104], [105]] rfl rfl

/-- C3: a `Flush` signal arriving while paused is a no-op:
`flush_internal` returns `Ok(())` with the state (pause buffer, line
state, raw terminal) unchanged, and the monitor continues. -/
theorem flush_while_paused_is_noop (s : MonitorState) (h : s.is_paused = true) :
    flush_internal s = (s, Except.ok ()) ∧
    process_line_control_signal (some LineControlSignal.Flush) s
      = (s, InternalControlFlow.Continue) := by
  constructor
  · simp [flush_internal, h]
  · simp [process_line_control_signal, flush_internal, h]

/-- Witness for C3 at a concrete paused state with a buffered payload. -/
theorem flush_while_paused_is_noop_witness :
    flush_internal sampleBufferedState = (sampleBufferedState, Except.ok ()) ∧
    process_line_control_signal (some LineControlSignal.Flush) sampleBufferedState
      = (sampleBufferedState, InternalControlFlow.Continue) :=
  flush_while_paused_is_noop sampleBufferedState rfl

/-- C4: a `Pause` signal sets the paused flag to true and changes nothing
else: the pause buffer, line state and raw terminal are exactly those of
the input state, and the monitor continues. -/
theorem pause_only_sets_flag (s : MonitorState) :
    process_line_control_signal (some LineControlSignal.Pause) s
      = ({ s with is_paused := true }, InternalControlFlow.Continue) := rfl

/-- C9: `process_line_control_signal` only ever returns `Continue` or
`ReturnError`, never `ReturnOk`; hence the unreachable arm of the monitor
task's channel branch can never be executed. -/
theorem process_line_control_signal_never_returns_ok
    (msig : Option LineControlSignal) (s : MonitorState) (u : Unit) :
    (process_line_control_signal msig s).2 ≠ InternalControlFlow.ReturnOk u ∧
    (monitor_step (MonitorInput.signal msig) s).2 ≠ some MonitorExit.panicked := by
  constructor
  · cases u; exact process_signal_not_return_ok msig s
  · exact monitor_step_no_panic (MonitorInput.signal msig) s

/-- C7: the monitor loop never ends in the unreachable arm of the match
(it never panics on any schedule of arrivals); when the line channel
yields `none` (all writers dropped) it closes the receiver and exits, and
whenever `process_line_control_signal` reports an error (such as a fatal
sink error while printing) the loop likewise closes the receiver and
exits. -/
theorem monitor_never_panics_and_closes_on_error
    (inps : List MonitorInput) (s : MonitorState)
    (msig : Option LineControlSignal) (e : ReadlineError)
    (herr : (process_line_control_signal msig s).2
        = InternalControlFlow.ReturnError e) :
    (monitor_loop inps s).2 ≠ MonitorExit.panicked ∧
    (monitor_step (MonitorInput.signal none) s).2 = some MonitorExit.exitClosed ∧
    (monitor_step (MonitorInput.signal msig) s).2 = some MonitorExit.exitClosed := by
  refine ⟨monitor_loop_no_panic inps s, rfl, ?_⟩
  rcases hres : process_line_control_signal msig s with ⟨s2, flow⟩
  rw [hres] at herr
  cases flow with
  | ReturnOk v => exact absurd herr (by simp)
  | ReturnError e2 => simp [monitor_step, hres]
  | Continue => exact absurd herr (by simp)

/-- Witness for C7: the closed-channel arrival on a concrete state. -/
theorem monitor_never_panics_and_closes_on_error_witness :
    (monitor_loop [] samplePausedState).2 ≠ MonitorExit.panicked ∧
    (monitor_step (MonitorInput.signal none) samplePausedState).2
        = some MonitorExit.exitClosed ∧
    (monitor_step (MonitorInput.signal none) samplePausedState).2
        = some MonitorExit.exitClosed :=
  monitor_never_panics_and_closes_on_error [] samplePausedState none
    ReadlineError.Closed rfl

/-- Draining with a failure-free sink prints every buffered payload in
FIFO order and empties the list. -/
theorem drain_print_all_ok (items : List Text) (ls : LineState)
    (term : RawTerminal) (h : term.failures = []) :
    drain_print_all items ls term
      = ([], ls, ⟨term.trace ++ items.map SinkEvent.printData, []⟩, none) := by
  induction items generalizing term with
  | nil =>
    obtain ⟨tr, fl⟩ := term
    simp only at h
    subst h
    simp [drain_print_all]
  | cons buf rest ih =>
    have hstep : ls.print_data buf term
        = Except.ok (ls, ⟨term.trace ++ [SinkEvent.printData buf], []⟩) := by
      obtain ⟨tr, fl⟩ := term
      simp only at h
      subst h
      simp [LineState.print_data, RawTerminal.step]
    simp only [drain_print_all, hstep]
    rw [ih ⟨term.trace ++ [SinkEvent.printData buf], []⟩ rfl]
    simp

/-- `flush_internal` on an unpaused state with a failure-free sink:
drain the whole buffer through `print_data` in FIFO order, then
`clear_and_render`, then flush, returning `Ok(())`. -/
theorem flush_internal_unpaused_ok (s : MonitorState)
    (hp : s.is_paused = false) (hf : s.raw_terminal.failures = []) :
    flush_internal s
      = ({ s with is_paused_buffer := ⟨[]⟩,
                  raw_terminal := ⟨s.raw_terminal.trace
                    ++ s.is_paused_buffer.items.map SinkEvent.printData
                    ++ [SinkEvent.clearAndRender, SinkEvent.flush], []⟩ },
         Except.ok ()) := by
  have hdrain := drain_print_all_ok s.is_paused_buffer.items s.line_state
    s.raw_terminal hf
  simp [flush_internal, hp, hdrain, LineState.clear_and_render, RawTerminal.step]

/-- C2: a `Resume` signal sets the paused flag to false and then performs
the same drain as `Flush`: with a failure-free sink, every pause-buffer
entry is passed to `print_data` in FIFO order, then `clear_and_render`
runs, then the raw terminal is flushed; afterwards the pause buffer is
empty and the monitor continues.  Moreover processing `Resume` is
literally processing `Flush` on the state with the paused flag cleared. -/
theorem resume_unpauses_and_drains (s : MonitorState)
    (h : s.raw_terminal.failures = []) :
    (process_line_control_signal (some LineControlSignal.Resume) s).2
        = InternalControlFlow.Continue ∧
    (process_line_control_signal (some LineControlSignal.Resume) s).1.is_paused
        = false ∧
    (process_line_control_signal (some LineControlSignal.Resume) s).1.is_paused_buffer.items = [] ∧
    (process_line_control_signal (some LineControlSignal.Resume) s).1.raw_terminal.trace
      = s.raw_terminal.trace
          ++ s.is_paused_buffer.items.map SinkEvent.printData
          ++ [SinkEvent.clearAndRender, SinkEvent.flush] ∧
    process_line_control_signal (some LineControlSignal.Resume) s
      = process_line_control_signal (some LineControlSignal.Flush)
          { s with is_paused := false } := by
  have hflush := flush_internal_unpaused_ok { s with is_paused := false } rfl h
  refine ⟨rfl, ?_, ?_, ?_, rfl⟩
  · show (flush_internal { s with is_paused := false }).1.is_paused = false
    rw [hflush]
  · show (flush_internal { s with is_paused := false }).1.is_paused_buffer.items = []
    rw [hflush]
  · show (flush_internal { s with is_paused := false }).1.raw_terminal.trace = _
    rw [hflush]

/-- Witness for C2: resuming a paused state holding one payload. -/
theorem resume_unpauses_and_drains_witness :
    (process_line_control_signal (some LineControlSignal.Resume)
        sampleBufferedState).2 = InternalControlFlow.Continue ∧
    (process_line_control_signal (some LineControlSignal.Resume)
        sampleBufferedState).1.is_paused = false ∧
    (process_line_control_signal (some LineControlSignal.Resume)
        sampleBufferedState).1.is_paused_buffer.items = [] ∧
    (process_line_control_signal (some LineControlSignal.Resume)
        sampleBufferedState).1.raw_terminal.trace
      = sampleBufferedState.raw_terminal.trace
          ++ sampleBufferedState.is_paused_buffer.items.map SinkEvent.printData
          ++ [SinkEvent.clearAndRender, SinkEvent.flush] ∧
    process_line_control_signal (some LineControlSignal.Resume) sampleBufferedState
      = process_line_control_signal (some LineControlSignal.Flush)
          { sampleBufferedState with is_paused := false } :=
  resume_unpauses_and_drains sampleBufferedState rfl

/-! ### Engine-side helper lemmas and claims -/

/-- A default-bounded empty history. -/
def sampleHistory : History :=
  { entries := [], max_size := 1000, cur_position := none }

/-- A readline engine state whose editor holds the line `abc`. -/
def demoReadline : Readline :=
  { line_state := { sampleLineState with line := "abc", cursor_pos := 3 },
    raw_terminal := ⟨[], []⟩, history := sampleHistory,
    history_channel := [], history_pushes := [], history_receiver_alive := true }

/-- A schedule delivering a single Enter key press. -/
def demoSched : List ReadlineInput :=
  [ReadlineInput.inputEvent (some (Except.ok Event.enter))]

/-- When `handle_event` reports `Line(str)`, the entries it pushed onto
the history channel are exactly `[str]`. -/
theorem handle_event_line_pushes (ls : LineState) (ev : Event) (term : RawTerminal)
    (hist : History) (ls2 : LineState) (term2 : RawTerminal) (hist2 : History)
    (sent : List String) (str : String)
    (h : ls.handle_event ev term hist
        = Except.ok (ls2, term2, hist2, sent, some (ReadlineEvent.Line str))) :
    sent = [str] := by
  cases ev <;>
    simp only [LineState.handle_event, LineState.handle_delete] at h <;>
    (try (repeat' split at h)) <;>
    (try simp_all)
  obtain ⟨h1, h2, h3, h4, h5⟩ := h
  subst h5
  exact h4.symm

/-- When `process_event` returns `ReturnOk(Line(str))`, the entry `str`
has been pushed onto the history channel during the call. -/
theorem process_event_line_pushes (mev : Option (Except IoErr Event))
    (st st2 : Readline) (str : String)
    (h : process_event mev st
        = (st2, InternalControlFlow.ReturnOk (ReadlineEvent.Line str))) :
    st2.history_pushes = st.history_pushes ++ [str] := by
  cases mev with
  | none => simp [process_event] at h
  | some res =>
    cases res with
    | error e => simp [process_event] at h
    | ok ev =>
      rcases hh : st.line_state.handle_event ev st.raw_terminal st.history with e | tup
      · simp [process_event, hh] at h
      · obtain ⟨ls2, term2, hist2, sent, mrle⟩ := tup
        rcases hf : term2.step SinkEvent.flush with e2 | term3
        · simp [process_event, hh, hf] at h
        · cases mrle with
          | none => simp [process_event, hh, hf] at h
          | some rle =>
            simp only [process_event, hh, hf] at h
            rw [Prod.mk.injEq] at h
            obtain ⟨h1, h2⟩ := h
            injection h2 with h3
            subst h3
            subst h1
            have hsent : sent = [str] :=
              handle_event_line_pushes st.line_state ev st.raw_terminal st.history
                ls2 term2 hist2 sent str hh
            subst hsent
            rfl

/-- C5: whenever a `readline()` run over a schedule of select arrivals
returns `Ok(Line(str))` from the input-event branch, the submitted entry
`str` has been pushed onto the history channel before the return (it is
the last entry of the push log). -/
theorem line_event_pushes_history_before_return
    (sched : List ReadlineInput) (st st2 : Readline) (str : String)
    (h : Readline.readline sched st
        = (st2, some (Except.ok (ReadlineEvent.Line str)))) :
    st2.history_pushes.getLast? = some str := by
  induction sched generalizing st with
  | nil => simp [Readline.readline] at h
  | cons inp rest ih =>
    cases inp with
    | shutdown => simp [Readline.readline] at h
    | historyRecv =>
      exact ih (history_recv_step st) (by simpa [Readline.readline] using h)
    | inputEvent mev =>
      rcases hpe : process_event mev st with ⟨st1, flow⟩
      cases flow with
      | ReturnOk v =>
        have hr : Readline.readline (ReadlineInput.inputEvent mev :: rest) st
            = (st1, some (Except.ok v)) := by
          simp [Readline.readline, hpe]
        rw [hr] at h
        rw [Prod.mk.injEq] at h
        obtain ⟨h1, h2⟩ := h
        injection h2 with h3
        injection h3 with h4
        subst h4
        subst h1
        have hp := process_event_line_pushes mev st st1 str hpe
        rw [hp]
        exact getLast_of_append_singleton _ _
      | ReturnError e =>
        have hr : Readline.readline (ReadlineInput.inputEvent mev :: rest) st
            = (st1, some (Except.error e)) := by
          simp [Readline.readline, hpe]
        rw [hr] at h
        simp at h
      | Continue =>
        have hr : Readline.readline (ReadlineInput.inputEvent mev :: rest) st
            = Readline.readline rest st1 := by
          simp [Readline.readline, hpe]
        rw [hr] at h
        exact ih st1 h

/-- Witness for C5: a single Enter press on a line holding `abc`. -/
theorem line_event_pushes_history_before_return_witness :
    (Readline.readline demoSched demoReadline).1.history_pushes.getLast?
      = some "abc" :=
  line_event_pushes_history_before_return demoSched demoReadline
    (Readline.readline demoSched demoReadline).1 "abc" rfl

/-- C6: `set_max_history n` sets `max_size` to `n` and truncates the
entries to the `n` newest (under the newest-first storage order the kept
entries are the first `n`; the removed ones are exactly the oldest,
`entries.drop n`). -/
theorem set_max_history_truncates_to_newest (st : Readline) (n : Nat) :
    (st.set_max_history n).history.max_size = n ∧
    (st.set_max_history n).history.entries = st.history.entries.take n ∧
    (st.set_max_history n).history.entries.length
        = min n st.history.entries.length ∧
    st.history.entries
      = (st.set_max_history n).history.entries ++ st.history.entries.drop n := by
  refine ⟨rfl, rfl, ?_, ?_⟩
  · simp [Readline.set_max_history]
  · simp [Readline.set_max_history]

/-- C8: `close()` sends `true` on the shutdown broadcast; a pending
`readline()` that receives the shutdown notification resolves immediately
to `Err(Closed)`, and the monitor task receiving it exits its loop. -/
theorem close_delivers_shutdown_and_readline_returns_closed
    (b : ShutdownBroadcast) (rest : List ReadlineInput) (st : Readline)
    (minps : List MonitorInput) (ms : MonitorState) :
    (Readline.close b).sent_values.getLast? = some true ∧
    Readline.readline (ReadlineInput.shutdown :: rest) st
      = (st, some (Except.error ReadlineError.Closed)) ∧
    monitor_loop (MonitorInput.shutdown :: minps) ms
      = (ms, MonitorExit.exitShutdown) := by
  refine ⟨?_, rfl, rfl⟩
  exact getLast_of_append_singleton b.sent_values true

/-- C10: `add_history_entry` only sends the entry on the unbounded
history channel: the `History` store, line state and raw terminal are
untouched, and because the instance itself owns the receiver half the
send succeeds, returning `Some(())`. -/
theorem add_history_entry_only_sends_on_channel (st : Readline) (entry : String)
    (h : st.history_receiver_alive = true) :
    st.add_history_entry entry
      = ({ st with history_channel := st.history_channel ++ [entry],
                   history_pushes := st.history_pushes ++ [entry] }, some ()) ∧
    (st.add_history_entry entry).1.history = st.history ∧
    (st.add_history_entry entry).1.line_state = st.line_state ∧
    (st.add_history_entry entry).1.raw_terminal = st.raw_terminal := by
  have h1 : st.add_history_entry entry
      = ({ st with history_channel := st.history_channel ++ [entry],
                   history_pushes := st.history_pushes ++ [entry] }, some ()) := by
    simp [Readline.add_history_entry, h]
  refine ⟨h1, ?_, ?_, ?_⟩ <;> rw [h1]

/-- Witness for C10 on a concrete live engine state. -/
theorem add_history_entry_only_sends_on_channel_witness :
    demoReadline.add_history_entry "one"
      = ({ demoReadline with
            history_channel := demoReadline.history_channel ++ ["one"],
            history_pushes := demoReadline.history_pushes ++ ["one"] }, some ()) ∧
    (demoReadline.add_history_entry "one").1.history = demoReadline.history ∧
    (demoReadline.add_history_entry "one").1.line_state = demoReadline.line_state ∧
    (demoReadline.add_history_entry "one").1.raw_terminal
        = demoReadline.raw_terminal :=
  add_history_entry_only_sends_on_channel demoReadline "one" rfl
